import Mathlib

/-!
Verification of the EasyRAG SDK client (src/client.ts, src/types.ts).

The development shallowly embeds the parts of the client that the
specification talks about:

* a model of JavaScript JSON values and of `JSON.parse` / `JSON.stringify`
  (used by the client for request bodies, error bodies, and stream frames);
* the streaming decode loop of `queryStream` (client.ts lines 234 to 257),
  including a model of the stateful WHATWG `TextDecoder`;
* the error normalisation of `request` (client.ts lines 70 to 96) and of
  `queryStream` (client.ts lines 226 to 232 and 258 to 265), together with a
  timing model of the `setTimeout` / `AbortController` cancellation;
* the header, upload-form and body construction of the domain methods.

All definitions are executable; theorems about concrete inputs are settled
by `decide`.
-/

/-! ## JSON values

JavaScript values produced by `JSON.parse`.  Numbers are kept lexically
(sign, integer digits, fraction digits, optional exponent) rather than as
floats; every numeric literal appearing in this client wire protocol is a
small integer, for which the lexical and numeric readings agree.  Object
fields are kept in insertion order, as JavaScript objects do. -/
mutual

inductive Json where
  | null : Json
  | bool (b : Bool) : Json
  | num (neg : Bool) (ip : List Nat) (fp : List Nat) (ex : Option (Bool × List Nat)) : Json
  | str (s : String) : Json
  | arr (xs : JsonList) : Json
  | obj (kvs : JsonKvs) : Json
deriving DecidableEq, Repr

/-- Elements of a JSON array, in order. -/
inductive JsonList where
  | nil : JsonList
  | cons (hd : Json) (tl : JsonList) : JsonList
deriving DecidableEq, Repr

/-- Fields of a JSON object, in insertion order. -/
inductive JsonKvs where
  | nil : JsonKvs
  | cons (k : String) (v : Json) (tl : JsonKvs) : JsonKvs
deriving DecidableEq, Repr

end

/-- Build array elements from a `List`. -/
def JsonList.ofList : List Json → JsonList
  | [] => .nil
  | j :: t => .cons j (JsonList.ofList t)

/-- Build object fields from a `List` of key/value pairs. -/
def JsonKvs.ofList : List (String × Json) → JsonKvs
  | [] => .nil
  | (k, v) :: t => .cons k v (JsonKvs.ofList t)

/-- Object literal helper. -/
def jObj (kvs : List (String × Json)) : Json :=
  .obj (JsonKvs.ofList kvs)

/-- Array literal helper. -/
def jArr (xs : List Json) : Json :=
  .arr (JsonList.ofList xs)

/-- Last-occurrence lookup in an object field list: `JSON.parse` keeps the
last of duplicate keys, so reading a field of the resulting JavaScript
object reads the last occurrence. -/
def lookupLast (kvs : JsonKvs) (k : String) : Option Json :=
  match kvs with
  | .nil => none
  | .cons k₂ v t =>
    match lookupLast t k with
    | some r => some r
    | none => if k₂ = k then some v else none

/-- Property access `j.k` on a parsed JSON value: defined (`some`) only on
objects having the field; on every other non-null value it is JavaScript
`undefined`, modelled as `none`.  (Access on `null` throws; the call sites
below treat that case separately.) -/
def Json.getField : Json → String → Option Json
  | .obj kvs, k => lookupLast kvs k
  | _, _ => none

/-- All-zero check on a digit list, for number truthiness. -/
def digitsAllZero (ds : List Nat) : Bool :=
  ds.all (fun d => d = 0)

/-- JavaScript truthiness of a JSON value: `null`, `false`, numeric zero and
the empty string are falsy; arrays and objects are always truthy. -/
def jsTruthy : Json → Bool
  | .null => false
  | .bool b => b
  | .num _ ip fp _ => !(digitsAllZero ip && digitsAllZero fp)
  | .str s => !(s = "")
  | .arr _ => true
  | .obj _ => true

/-- JavaScript `a || b` where `a` is an optional field read (`undefined`
when the field is absent): yields the field value when present and truthy,
otherwise the fallback. -/
def jsOrJ (a : Option Json) (b : Json) : Json :=
  match a with
  | some v => if jsTruthy v then v else b
  | none => b

/-- JavaScript `s || d` on strings: the fallback replaces the empty string. -/
def jsOrStr (v : Option String) (d : String) : String :=
  match v with
  | some s => if s = "" then d else s
  | none => d

/-- JavaScript `n || d` on non-negative numbers: the fallback replaces `0`
(and, as `none`, an absent/`undefined` field). -/
def jsOrNat (v : Option Nat) (d : Nat) : Nat :=
  match v with
  | some n => if n = 0 then d else n
  | none => d

/-! ## A model of `JSON.parse`

Recursive-descent parser over `List Char`, following the JSON grammar that
`JSON.parse` implements: optional whitespace around tokens, strings with
escapes, numbers without leading zeros, `true` / `false` / `null`, arrays
and objects.  A `none` result models `JSON.parse` throwing.  Composite
values use explicit fuel; the fuel provided by `jsonParse` is large enough
that it is never exhausted on any input (each recursive call either
consumes a character first or descends into a strictly smaller suffix). -/

def isJsonWs (c : Char) : Bool :=
  c = ' ' || c = '\t' || c = '\n' || c = '\r'

/-- Drop leading JSON whitespace. -/
def skipWs : List Char → List Char
  | [] => []
  | c :: t => if isJsonWs c then skipWs t else c :: t

/-- Single-character string escapes; `none` models a parse error.  (`\u` is
handled separately by the four-hex-digit rule.) -/
def escChar (c : Char) : Option Char :=
  if c = '"' then some '"'
  else if c = '\\' then some '\\'
  else if c = '/' then some '/'
  else if c = 'b' then some (Char.ofNat 8)
  else if c = 'f' then some (Char.ofNat 12)
  else if c = 'n' then some '\n'
  else if c = 'r' then some '\r'
  else if c = 't' then some '\t'
  else none

def hexVal (c : Char) : Option Nat :=
  if '0' ≤ c && c ≤ '9' then some (c.toNat - 48)
  else if 'a' ≤ c && c ≤ 'f' then some (c.toNat - 87)
  else if 'A' ≤ c && c ≤ 'F' then some (c.toNat - 55)
  else none

/-- Body of a JSON string literal, after the opening quote.  Returns the
decoded characters and the rest of the input after the closing quote.
Raw control characters are rejected, as `JSON.parse` rejects them.  A
`\u` escape denoting a surrogate half (not representable as a scalar
value) is mapped to U+FFFD. -/
def parseStrBody : List Char → Option (List Char × List Char)
  | [] => none
  | '"' :: t => some ([], t)
  | '\\' :: 'u' :: a :: b :: c :: d :: t =>
    match hexVal a, hexVal b, hexVal c, hexVal d with
    | some ha, some hb, some hc, some hd =>
      (parseStrBody t).map (fun p =>
        (let n := ((ha * 16 + hb) * 16 + hc) * 16 + hd
         let ch := if 0xD800 ≤ n && n ≤ 0xDFFF then Char.ofNat 0xFFFD else Char.ofNat n
         ch :: p.1, p.2))
    | _, _, _, _ => none
  | '\\' :: e :: t =>
    match escChar e with
    | some ch => (parseStrBody t).map (fun p => (ch :: p.1, p.2))
    | none => none
  | c :: t =>
    if c.toNat < 0x20 then none
    else (parseStrBody t).map (fun p => (c :: p.1, p.2))

def digVal (c : Char) : Nat := c.toNat - 48

/-- Longest prefix of decimal digits. -/
def takeDigits : List Char → List Nat × List Char
  | [] => ([], [])
  | c :: t =>
    if c.isDigit then
      let r := takeDigits t
      (digVal c :: r.1, r.2)
    else ([], c :: t)

/-- Optional exponent part of a number. -/
def parseNumExp (neg : Bool) (ip fp : List Nat) (l : List Char) : Option (Json × List Char) :=
  match l with
  | c :: t =>
    if c = 'e' || c = 'E' then
      match t with
      | '+' :: t₂ =>
        let r := takeDigits t₂
        if r.1 = [] then none else some (.num neg ip fp (some (false, r.1)), r.2)
      | '-' :: t₂ =>
        let r := takeDigits t₂
        if r.1 = [] then none else some (.num neg ip fp (some (true, r.1)), r.2)
      | t₂ =>
        let r := takeDigits t₂
        if r.1 = [] then none else some (.num neg ip fp (some (false, r.1)), r.2)
    else some (.num neg ip fp none, c :: t)
  | [] => some (.num neg ip fp none, [])

/-- Optional fraction part of a number, then the exponent. -/
def parseNumFrac (neg : Bool) (ip : List Nat) (l : List Char) : Option (Json × List Char) :=
  match l with
  | '.' :: t =>
    let r := takeDigits t
    if r.1 = [] then none else parseNumExp neg ip r.1 r.2
  | _ => parseNumExp neg ip [] l

/-- A JSON number after the optional minus sign.  Leading zeros are
rejected (`JSON.parse` rejects `01`). -/
def parseNum (neg : Bool) (l : List Char) : Option (Json × List Char) :=
  match l with
  | '0' :: t =>
    match t with
    | d :: _ => if d.isDigit then none else parseNumFrac neg [0] t
    | [] => parseNumFrac neg [0] []
  | c :: t =>
    if c.isDigit then
      let r := takeDigits t
      parseNumFrac neg (digVal c :: r.1) r.2
    else none
  | [] => none

mutual

/-- A JSON value, leading whitespace allowed. -/
def parseVal : Nat → List Char → Option (Json × List Char)
  | 0, _ => none
  | Nat.succ fuel, l =>
    match skipWs l with
    | [] => none
    | '"' :: t => (parseStrBody t).map (fun p => (.str (String.mk p.1), p.2))
    | '-' :: t => parseNum true t
    | '[' :: t =>
      (match skipWs t with
       | ']' :: t₂ => some (.arr .nil, t₂)
       | _ => (parseArrItems fuel t).map (fun p => (.arr (JsonList.ofList p.1), p.2)))
    | 't' :: 'r' :: 'u' :: 'e' :: t => some (.bool true, t)
    | 'f' :: 'a' :: 'l' :: 's' :: 'e' :: t => some (.bool false, t)
    | 'n' :: 'u' :: 'l' :: 'l' :: t => some (.null, t)
    | c :: t =>
      if c.isDigit then parseNum false (c :: t)
      else if c.toNat = 123 then
        (match skipWs t with
         | c₂ :: t₂ =>
           if c₂.toNat = 125 then some (.obj .nil, t₂)
           else (parseObjItems fuel t).map (fun p => (.obj (JsonKvs.ofList p.1), p.2))
         | [] => none)
      else none

/-- One or more comma-separated array items followed by `]`. -/
def parseArrItems : Nat → List Char → Option (List Json × List Char)
  | 0, _ => none
  | Nat.succ fuel, l =>
    match parseVal fuel l with
    | none => none
    | some (j, rest) =>
      match skipWs rest with
      | ',' :: t => (parseArrItems fuel t).map (fun p => (j :: p.1, p.2))
      | ']' :: t => some ([j], t)
      | _ => none

/-- One or more comma-separated `"key": value` members followed by the
closing brace. -/
def parseObjItems : Nat → List Char → Option (List (String × Json) × List Char)
  | 0, _ => none
  | Nat.succ fuel, l =>
    match skipWs l with
    | '"' :: t =>
      (match parseStrBody t with
       | none => none
       | some (key, rest) =>
         match skipWs rest with
         | ':' :: t₂ =>
           (match parseVal fuel t₂ with
            | none => none
            | some (v, rest₂) =>
              match skipWs rest₂ with
              | ',' :: t₃ => (parseObjItems fuel t₃).map (fun p => ((String.mk key, v) :: p.1, p.2))
              | c₃ :: t₃ =>
                if c₃.toNat = 125 then some ([(String.mk key, v)], t₃) else none
              | [] => none)
         | _ => none)
    | _ => none

end

/-- `JSON.parse` on a character list: parse one value, then require that
only whitespace remains.  `none` models a thrown `SyntaxError`. -/
def jsonParse (l : List Char) : Option Json :=
  match parseVal (4 * l.length + 8) l with
  | some (j, rest) => if skipWs rest = [] then some j else none
  | none => none

/-- `response.json().catch(() => ({}))` (client.ts line 71 and line 227):
the body parsed as JSON, with parse failure tolerated as an empty object. -/
def parseOrEmpty (l : List Char) : Json :=
  (jsonParse l).getD (Json.obj .nil)

/-! ## A model of `TextDecoder`

`queryStream` decodes the response bytes with a single `TextDecoder`
created at line 235 and used with `{stream: true}` at line 242, so the
decoder state (an unfinished multi-byte sequence) persists across chunks.
The WHATWG encoding standard defines the UTF-8 decoder as a byte-at-a-time
state machine; `tdStep` is that machine.  `needed` counts outstanding
continuation bytes, `acc` accumulates the code point, and `lo`/`hi` bound
the next continuation byte (this is how the standard excludes overlong
forms and surrogates).  Invalid bytes are replaced by U+FFFD, as the
default non-fatal `TextDecoder` does.  `bom` records that the stream is
still at its start, where a decoded U+FEFF is a byte-order mark and is
dropped (default `ignoreBOM: false`). -/
structure TDState where
  needed : Nat
  acc : Nat
  lo : Nat
  hi : Nat
  bom : Bool
deriving DecidableEq, Repr

def tdInit : TDState := ⟨0, 0, 0x80, 0xBF, true⟩

/-- Emit one decoded code point, dropping it when it is a leading BOM. -/
def bomEmit (bom : Bool) (cp : Nat) : List Char :=
  if bom && cp = 0xFEFF then [] else [Char.ofNat cp]

/-- Classify a byte in the start state (no outstanding continuation). -/
def tdStart (bom : Bool) (b : Nat) : TDState × List Char :=
  if b ≤ 0x7F then (⟨0, 0, 0x80, 0xBF, false⟩, bomEmit bom b)
  else if 0xC2 ≤ b && b ≤ 0xDF then (⟨1, b % 32, 0x80, 0xBF, bom⟩, [])
  else if 0xE0 ≤ b && b ≤ 0xEF then
    (⟨2, b % 16, if b = 0xE0 then 0xA0 else 0x80, if b = 0xED then 0x9F else 0xBF, bom⟩, [])
  else if 0xF0 ≤ b && b ≤ 0xF4 then
    (⟨3, b % 8, if b = 0xF0 then 0x90 else 0x80, if b = 0xF4 then 0x8F else 0xBF, bom⟩, [])
  else (⟨0, 0, 0x80, 0xBF, false⟩, [Char.ofNat 0xFFFD])

/-- One byte of UTF-8 decoding (WHATWG UTF-8 decoder step). -/
def tdStep (st : TDState) (b : Nat) : TDState × List Char :=
  if st.needed = 0 then tdStart st.bom b
  else if st.lo ≤ b && b ≤ st.hi then
    (if st.needed = 1 then (⟨0, 0, 0x80, 0xBF, false⟩, bomEmit st.bom (st.acc * 64 + b % 64))
     else (⟨st.needed - 1, st.acc * 64 + b % 64, 0x80, 0xBF, st.bom⟩, []))
  else
    (let r := tdStart false b
     (r.1, Char.ofNat 0xFFFD :: r.2))

/-- Fold step for decoding a chunk: thread the decoder state, concatenate
the output. -/
def tdFold (acc : TDState × List Char) (b : Nat) : TDState × List Char :=
  ((tdStep acc.1 b).1, acc.2 ++ (tdStep acc.1 b).2)

/-- `decoder.decode(value, {stream: true})` (client.ts line 242): decode a
whole chunk, threading the decoder state and concatenating the output. -/
def tdDecode (st : TDState) (chunk : List Nat) : TDState × List Char :=
  chunk.foldl tdFold (st, [])

/-! ## The stream decode loop (client.ts lines 234 to 257)

Per chunk, the source appends the decoded text to `buffer`, splits on
newline, keeps the final fragment as the new `buffer`, and for every
complete line that starts with `data: ` tries `JSON.parse` on the rest of
the line, yielding the parsed value on success and skipping the line on
failure.  `DecState` is the loop state; the `lns` field additionally
records every complete line the loop has iterated over (the successive
`lines` arrays of line 243) — it is an observation used to state
invariants and has no influence on `buf` or `evs`. -/

/-- `buffer.split('\n')` (client.ts line 243): `n` newlines give `n + 1`
pieces, in order; the pieces do not contain newlines. -/
def splitNl : List Char → List (List Char)
  | [] => [[]]
  | c :: t =>
    if c = '\n' then [] :: splitNl t
    else
      match splitNl t with
      | [] => [[c]]
      | p :: ps => (c :: p) :: ps

/-- `lines.pop() || ''` (client.ts line 244): the last piece of the split
(kept as the new buffer); the `|| ''` is an identity here since the last
piece of a split is already a string. -/
def lastPiece : List (List Char) → List Char
  | [] => []
  | [p] => p
  | _ :: p :: ps => lastPiece (p :: ps)

/-- Decoding of one complete line (client.ts lines 247 to 254): lines
starting with `data: ` have the rest parsed as JSON; a parse failure, or a
line without the marker, produces no event. -/
def lineEvent (l : List Char) : Option Json :=
  if l.take 6 = ("data: ").toList then jsonParse (l.drop 6) else none

/-- State of the decode loop: decoder state, pending partial line, all
complete lines seen so far (observation), events yielded so far. -/
structure DecState where
  td : TDState
  buf : List Char
  lns : List (List Char)
  evs : List Json
deriving DecidableEq, Repr

def initDecState : DecState := ⟨tdInit, [], [], []⟩

/-- One chunk of the loop body (client.ts lines 242 to 256): decode the
chunk, append to the buffer, split on newlines, keep the last piece as the
new buffer, and yield the events of the complete lines in order. -/
def processChunk (s : DecState) (chunk : List Nat) : DecState :=
  let r := tdDecode s.td chunk
  let pieces := splitNl (s.buf ++ r.2)
  ⟨r.1, lastPiece pieces, s.lns ++ pieces.dropLast,
    s.evs ++ pieces.dropLast.filterMap lineEvent⟩

/-- The loop over all received chunks.  On end of stream (line 240) the
loop exits without flushing `buffer`, so a final line not terminated by a
newline is dropped; the events are those yielded so far. -/
def runDec (chunks : List (List Nat)) : DecState :=
  chunks.foldl processChunk initDecState

/-- The event sequence `queryStream` yields for a given chunking of the
response bytes (after a 2xx response). -/
def streamEvents (chunks : List (List Nat)) : List Json :=
  (runDec chunks).evs

/-! ### Chunking invariance of the decode loop

The WHATWG decoder is byte-at-a-time and the buffer logic is
character-at-a-time, so processing a byte list in one chunk or in any
partition of it gives the same loop state.  The proof factors the
per-chunk body `processChunk` through single-character and single-byte
steps. -/

/-- Replace the decoder-state component of a loop state. -/
def setTd (s : DecState) (x : TDState) : DecState :=
  ⟨x, s.buf, s.lns, s.evs⟩

/-- Feeding one decoded character to the buffer logic: a newline closes
the current line (recording it and yielding its event, if any); any other
character extends the pending line. -/
def charStep (s : DecState) (c : Char) : DecState :=
  if c = '\n' then ⟨s.td, [], s.lns ++ [s.buf], s.evs ++ (lineEvent s.buf).toList⟩
  else ⟨s.td, s.buf ++ [c], s.lns, s.evs⟩

/-- The buffer-append / split / dispatch part of the chunk body, for an
arbitrary piece of decoded text. -/
def textStep (s : DecState) (txt : List Char) : DecState :=
  ⟨s.td, lastPiece (splitNl (s.buf ++ txt)),
    s.lns ++ (splitNl (s.buf ++ txt)).dropLast,
    s.evs ++ (splitNl (s.buf ++ txt)).dropLast.filterMap lineEvent⟩

/-- Feeding one byte: decode it (producing zero, one or two characters)
and feed the characters to the buffer logic. -/
def byteStep (s : DecState) (b : Nat) : DecState :=
  (tdStep s.td b).2.foldl charStep (setTd s (tdStep s.td b).1)

theorem processChunk_textStep (s : DecState) (chunk : List Nat) :
    processChunk s chunk = textStep (setTd s (tdDecode s.td chunk).1) (tdDecode s.td chunk).2 :=
  rfl

theorem tdFold_acc (chunk : List Nat) : ∀ (st : TDState) (o : List Char),
    chunk.foldl tdFold (st, o) =
      ((chunk.foldl tdFold (st, [])).1, o ++ (chunk.foldl tdFold (st, [])).2) := by
  induction chunk with
  | nil => intro st o; simp
  | cons b bs ih =>
    intro st o
    simp only [List.foldl_cons, tdFold, List.nil_append]
    rw [ih ((tdStep st b).1) (o ++ (tdStep st b).2), ih ((tdStep st b).1) ((tdStep st b).2)]
    simp

theorem tdDecode_cons (st : TDState) (b : Nat) (bs : List Nat) :
    tdDecode st (b :: bs) =
      ((tdDecode (tdStep st b).1 bs).1,
        (tdStep st b).2 ++ (tdDecode (tdStep st b).1 bs).2) := by
  simp only [tdDecode, List.foldl_cons, tdFold, List.nil_append]
  exact tdFold_acc bs ((tdStep st b).1) ((tdStep st b).2)

theorem splitNl_ne_nil (l : List Char) : splitNl l ≠ [] := by
  cases l with
  | nil => simp [splitNl]
  | cons c t =>
    simp only [splitNl]
    split
    · simp
    · split <;> simp

theorem splitNl_append_noNl (xs ys : List Char) (h : '\n' ∉ xs) :
    splitNl (xs ++ ys) = (xs ++ (splitNl ys).headD []) :: (splitNl ys).tail := by
  induction xs with
  | nil =>
    obtain ⟨p, ps, hp⟩ := List.exists_cons_of_ne_nil (splitNl_ne_nil ys)
    rw [List.nil_append, hp]
    simp
  | cons x xs ih =>
    have hx : x ≠ '\n' := fun hc => h (hc ▸ List.mem_cons_self x xs)
    have h₂ : '\n' ∉ xs := fun hc => h (List.mem_cons_of_mem x hc)
    rw [List.cons_append]
    simp only [splitNl, hx, if_false, ih h₂]
    simp

theorem textStep_nil (s : DecState) (h : '\n' ∉ s.buf) : textStep s [] = s := by
  have h0 : splitNl ([] : List Char) = [[]] := by
    simp [splitNl]
  have hs : splitNl (s.buf ++ []) = [s.buf] := by
    rw [splitNl_append_noNl s.buf [] h, h0]
    simp
  simp only [List.append_nil] at hs
  simp [textStep, hs, lastPiece]

theorem textStep_cons (s : DecState) (c : Char) (txt : List Char) (h : '\n' ∉ s.buf) :
    textStep s (c :: txt) = textStep (charStep s c) txt := by
  by_cases hc : c = '\n'
  · subst hc
    obtain ⟨p, ps, hp⟩ := List.exists_cons_of_ne_nil (splitNl_ne_nil txt)
    have h0 : splitNl ('\n' :: txt) = [] :: splitNl txt := by
      simp [splitNl]
    have h1 : splitNl (s.buf ++ '\n' :: txt) = s.buf :: p :: ps := by
      rw [splitNl_append_noNl s.buf ('\n' :: txt) h, h0, hp]
      simp
    simp only [textStep, charStep, if_pos rfl, h1, hp, List.nil_append, lastPiece,
      List.dropLast_cons_of_ne_nil (List.cons_ne_nil p ps),
      List.filterMap_cons, List.append_assoc]
    cases hle : lineEvent s.buf <;> simp [hle, hp]
  · have hb : s.buf ++ c :: txt = (s.buf ++ [c]) ++ txt := by simp
    simp only [textStep, charStep, if_neg hc]
    rw [hb]

theorem noNl_charStep (s : DecState) (c : Char) (h : '\n' ∉ s.buf) :
    '\n' ∉ (charStep s c).buf := by
  by_cases hc : c = '\n'
  · simp [charStep, hc]
  · simp only [charStep, hc, if_false]
    intro hm
    rcases List.mem_append.mp hm with hm₁ | hm₂
    · exact h hm₁
    · exact hc (List.mem_singleton.mp hm₂).symm

theorem textStep_foldl (txt : List Char) : ∀ s : DecState, '\n' ∉ s.buf →
    textStep s txt = txt.foldl charStep s := by
  induction txt with
  | nil => intro s h; simpa using textStep_nil s h
  | cons c t ih =>
    intro s h
    rw [textStep_cons s c t h, List.foldl_cons]
    exact ih (charStep s c) (noNl_charStep s c h)

theorem charStep_setTd (s : DecState) (x : TDState) (c : Char) :
    charStep (setTd s x) c = setTd (charStep s c) x := by
  by_cases hc : c = '\n' <;> simp [charStep, setTd, hc]

theorem foldl_charStep_setTd (txt : List Char) : ∀ (s : DecState) (x : TDState),
    txt.foldl charStep (setTd s x) = setTd (txt.foldl charStep s) x := by
  induction txt with
  | nil => intro s x; rfl
  | cons c t ih =>
    intro s x
    rw [List.foldl_cons, List.foldl_cons, charStep_setTd]
    exact ih (charStep s c) x

theorem noNl_foldl_charStep (txt : List Char) : ∀ s : DecState, '\n' ∉ s.buf →
    '\n' ∉ (txt.foldl charStep s).buf := by
  induction txt with
  | nil => intro s h; exact h
  | cons c t ih => intro s h; exact ih (charStep s c) (noNl_charStep s c h)

theorem noNl_byteStep (s : DecState) (b : Nat) (h : '\n' ∉ s.buf) :
    '\n' ∉ (byteStep s b).buf :=
  noNl_foldl_charStep _ _ h

theorem byteStep_td (s : DecState) (b : Nat) : (byteStep s b).td = (tdStep s.td b).1 := by
  rw [byteStep, foldl_charStep_setTd]
  rfl

theorem processChunk_nil (s : DecState) (h : '\n' ∉ s.buf) : processChunk s [] = s := by
  rw [processChunk_textStep]
  exact textStep_nil s h

theorem processChunk_foldl (chunk : List Nat) : ∀ s : DecState, '\n' ∉ s.buf →
    processChunk s chunk = chunk.foldl byteStep s := by
  induction chunk with
  | nil => intro s h; simpa using processChunk_nil s h
  | cons b bs ih =>
    intro s h
    rw [List.foldl_cons, ← ih (byteStep s b) (noNl_byteStep s b h)]
    rw [processChunk_textStep, processChunk_textStep, tdDecode_cons, byteStep_td]
    rw [textStep_foldl _ _ (by exact h), List.foldl_append]
    rw [textStep_foldl _ _ (by exact noNl_byteStep s b h)]
    congr 1
    conv_rhs => rw [byteStep]
    rw [foldl_charStep_setTd, foldl_charStep_setTd]
    rfl

theorem noNl_foldl_byteStep (chunk : List Nat) : ∀ s : DecState, '\n' ∉ s.buf →
    '\n' ∉ (chunk.foldl byteStep s).buf := by
  induction chunk with
  | nil => intro s h; exact h
  | cons b bs ih => intro s h; exact ih (byteStep s b) (noNl_byteStep s b h)

theorem noNl_processChunk (s : DecState) (chunk : List Nat) (h : '\n' ∉ s.buf) :
    '\n' ∉ (processChunk s chunk).buf := by
  rw [processChunk_foldl chunk s h]
  exact noNl_foldl_byteStep chunk s h

theorem processChunk_append (s : DecState) (a b : List Nat) (h : '\n' ∉ s.buf) :
    processChunk s (a ++ b) = processChunk (processChunk s a) b := by
  rw [processChunk_foldl _ s h, List.foldl_append, ← processChunk_foldl a s h,
    ← processChunk_foldl b _ (noNl_processChunk s a h)]

theorem foldl_processChunk_flatten (chunks : List (List Nat)) : ∀ s : DecState, '\n' ∉ s.buf →
    chunks.foldl processChunk s = processChunk s chunks.flatten := by
  induction chunks with
  | nil => intro s h; simpa using (processChunk_nil s h).symm
  | cons hd tl ih =>
    intro s h
    rw [List.foldl_cons, ih (processChunk s hd) (noNl_processChunk s hd h),
      List.flatten_cons, processChunk_append s hd tl.flatten h]

/-- Chunking invariance: the decode loop yields the same state however
the response bytes were cut into chunks. -/
theorem runDec_chunking (chunks : List (List Nat)) :
    runDec chunks = runDec [chunks.flatten] := by
  unfold runDec
  rw [foldl_processChunk_flatten chunks initDecState (by simp [initDecState]),
    List.foldl_cons, List.foldl_nil]

/-- Chunking invariance for the yielded events. -/
theorem streamEvents_chunking (chunks : List (List Nat)) :
    streamEvents chunks = streamEvents [chunks.flatten] := by
  unfold streamEvents
  rw [runDec_chunking]

/-! ### Events are exactly the parses of the complete lines -/

theorem processChunk_evs_lns (s : DecState) (chunk : List Nat)
    (h : s.evs = s.lns.filterMap lineEvent) :
    (processChunk s chunk).evs = (processChunk s chunk).lns.filterMap lineEvent := by
  simp only [processChunk, List.filterMap_append, h]

theorem runDec_evs_lns (chunks : List (List Nat)) :
    (runDec chunks).evs = (runDec chunks).lns.filterMap lineEvent := by
  unfold runDec
  induction chunks using List.reverseRecOn with
  | nil => rfl
  | append_singleton cs c ih =>
    rw [List.foldl_append, List.foldl_cons, List.foldl_nil]
    exact processChunk_evs_lns _ c ih

/-- Every yielded event is the successful parse of the payload of some
complete `data: ` line of the stream. -/
theorem streamEvents_from_lines (chunks : List (List Nat)) (ev : Json)
    (hev : ev ∈ streamEvents chunks) :
    ∃ l ∈ (runDec chunks).lns, lineEvent l = some ev := by
  unfold streamEvents at hev
  rw [runDec_evs_lns] at hev
  exact List.mem_filterMap.mp hev

/-! ## UTF-8 encoding (to build concrete byte streams) -/

/-- Standard UTF-8 encoding of one scalar value. -/
def encodeChar (c : Char) : List Nat :=
  if c.toNat < 0x80 then [c.toNat]
  else if c.toNat < 0x800 then [0xC0 + c.toNat / 64, 0x80 + c.toNat % 64]
  else if c.toNat < 0x10000 then
    [0xE0 + c.toNat / 4096, 0x80 + c.toNat / 64 % 64, 0x80 + c.toNat % 64]
  else
    [0xF0 + c.toNat / 262144, 0x80 + c.toNat / 4096 % 64,
      0x80 + c.toNat / 64 % 64, 0x80 + c.toNat % 64]

/-- UTF-8 encoding of a text, as the server sends it. -/
def utf8Encode (l : List Char) : List Nat :=
  (l.map encodeChar).flatten

/-! ## The request lifecycle (client.ts lines 51 to 97 and 200 to 265)

Both `request` and `queryStream` create an `AbortController`, schedule
`controller.abort()` after `this.timeout` milliseconds (line 56 / 206) and
`await fetch(...)` with that signal.  `clearTimeout` runs as soon as the
`fetch` promise settles (line 68 / 224) — before the body is read — and
also on the failure path (line 82 / 259).  Consequently the timer can only
fire while the `fetch` itself (response headers) is pending; if it fires,
`fetch` rejects with an `AbortError` and the catch block converts it to
the `"Request timeout"` error (lines 86 to 88 / 261 to 263).

The model makes the timing explicit: `resolveAt` is the instant at which
the `fetch` promise would settle (`none` if it never settles) with outcome
`FetchOutcome`; the timer fires at instant `t` (the configured timeout).
When the timer fires first the observable outcome is independent of what
the fetch would later have produced: the transport reports a rejection
named `AbortError`. -/

/-- A value thrown by the JavaScript runtime: an `Error`-like object with
a `name` and a `message`, a bare string, or anything else. -/
inductive JsThrown where
  | errObj (name : String) (msg : String) : JsThrown
  | strVal (s : String) : JsThrown
  | other : JsThrown
deriving DecidableEq, Repr

/-- `isAbortError` (client.ts lines 18 to 25): an object whose `name`
property is `"AbortError"`.  A thrown string has no `name` property. -/
def isAbortError : JsThrown → Bool
  | .errObj n _ => n = "AbortError"
  | _ => false

/-- `getErrorMessage` (client.ts lines 27 to 31). -/
def getErrorMessage : JsThrown → String
  | .errObj _ m => m
  | .strVal s => s
  | .other => "Unknown error"

/-- The `details` slot of a client error: either a JSON value taken from
an error body, or the raw thrown value (line 94 passes `error` itself). -/
inductive ErrDetail where
  | json (j : Json) : ErrDetail
  | thrown (e : JsThrown) : ErrDetail
deriving DecidableEq, Repr

/-- `EasyRAGError` (types.ts lines 136 to 146): `message` is the first
constructor argument (kept as the JavaScript value that was passed);
`status`, `code` and `details` are optional, `none` modelling the
parameter being `undefined`. -/
structure EasyRAGError where
  message : Json
  status : Option Nat := none
  code : Option Json := none
  details : Option ErrDetail := none
deriving DecidableEq, Repr

/-- The error thrown when the cancellation timer aborted the exchange
(client.ts line 87 / 262): constructed with only a message. -/
def timeoutError : EasyRAGError :=
  ⟨.str ("Request timeout"), none, none, none⟩

/-- How `fetch` settles, had nothing aborted it: a response with a status
and a body, or a rejection with a thrown value. -/
inductive FetchOutcome where
  | success (status : Nat) (body : List Char) : FetchOutcome
  | failure (e : JsThrown) : FetchOutcome
deriving DecidableEq, Repr

/-- `response.ok`: status in the 2xx range. -/
def respOk (status : Nat) : Bool :=
  200 ≤ status && status < 300

/-- The model of the thrown value when a 2xx body fails to parse as JSON
(`response.json()` rejecting, line 80): a `SyntaxError`; its exact message
text is host-defined. -/
def jsonParseThrown : JsThrown :=
  .errObj ("SyntaxError") ("Unexpected token in JSON")

/-- The model of the thrown value when the error body parses to JSON
`null` and line 73 reads `.error` of it: a `TypeError`; its exact message
text is host-defined. -/
def nullAccessThrown : JsThrown :=
  .errObj ("TypeError") ("Cannot read properties of null")

/-- The catch-block normalisation of `request` (client.ts lines 84 to 95):
an `EasyRAGError` passes through; an abort becomes the timeout error; any
other thrown value becomes a network error whose message is the thrown
value's message (`"Network error"` if that is empty) and whose `details`
is the raw thrown value. -/
def requestCatch (e : JsThrown) : EasyRAGError :=
  if isAbortError e then timeoutError
  else ⟨.str (jsOrStr (some (getErrorMessage e)) ("Network error")), none, none, some (.thrown e)⟩

/-- The non-2xx error of `request` (client.ts lines 70 to 77), for a body
that did not parse to `null`: message is `error.error || error.message ||
"HTTP <status>"`, status is the HTTP status, `code` is the body's `error`
field, `details` the body's `details` field. -/
def mkRequestHttpError (body : List Char) (status : Nat) : EasyRAGError :=
  ⟨jsOrJ ((parseOrEmpty body).getField ("error"))
      (jsOrJ ((parseOrEmpty body).getField ("message")) (.str ("HTTP " ++ toString status))),
    some status,
    (parseOrEmpty body).getField ("error"),
    ((parseOrEmpty body).getField ("details")).map ErrDetail.json⟩

/-- The whole `request` helper (client.ts lines 51 to 97) as a function of
the configured timeout `t`, the instant `resolveAt` at which `fetch`
would settle, and its outcome.  Ties (`resolveAt = t`) are resolved in
favour of the response, matching a timer that fires strictly after `t`.
A 2xx body is parsed and returned unchanged; an unparseable 2xx body
rejects inside the `try` and is normalised by the catch block. -/
def requestRun (t : Nat) (resolveAt : Option Nat) (out : FetchOutcome) :
    Except EasyRAGError Json :=
  match resolveAt with
  | none => .error timeoutError
  | some r =>
    if t < r then .error timeoutError
    else
      match out with
      | .failure e => .error (requestCatch e)
      | .success status body =>
        if respOk status then
          match jsonParse body with
          | some j => .ok j
          | none => .error (requestCatch jsonParseThrown)
        else if parseOrEmpty body = Json.null then .error (requestCatch nullAccessThrown)
        else .error (mkRequestHttpError body status)

/-! ## The streaming lifecycle (client.ts lines 200 to 265) -/

/-- How one `reader.read()` settles: a chunk of bytes, end of stream
(`done: true`), or a rejection. -/
inductive ReadEvt where
  | chunk (bytes : List Nat) : ReadEvt
  | eof : ReadEvt
  | fail (e : JsThrown) : ReadEvt
deriving DecidableEq, Repr

/-- How a streaming call ends, after the events it yielded: the stream
ended normally, the next read never settles (the generator waits forever —
note the timer was already cleared at line 224), or an error is thrown. -/
inductive StreamTerm where
  | ended : StreamTerm
  | hung : StreamTerm
  | threw (e : EasyRAGError) : StreamTerm
deriving DecidableEq, Repr

/-- The catch-block normalisation of `queryStream` (client.ts lines 258 to
265): like `request`, but the generic message fallback is
`"Streaming error"` and the constructor is called with a message only (no
status, code or details). -/
def streamCatch (e : JsThrown) : EasyRAGError :=
  if isAbortError e then timeoutError
  else ⟨.str (jsOrStr (some (getErrorMessage e)) ("Streaming error")), none, none, none⟩

/-- The non-2xx error of `queryStream` (client.ts lines 227 to 231), for a
body that did not parse to `null`: message is `error.error ||
"HTTP <status>"` — there is no `error.message` fallback — and the
constructor receives only message and status, so `code` and `details`
remain unset. -/
def mkStreamHttpError (body : List Char) (status : Nat) : EasyRAGError :=
  ⟨jsOrJ ((parseOrEmpty body).getField ("error")) (.str ("HTTP " ++ toString status)),
    some status, none, none⟩

/-- The read loop of `queryStream` (client.ts lines 238 to 257): process
chunks until end of stream; an exhausted model read list stands for a
read that never settles, leaving the generator suspended. -/
def consumeReads : DecState → List ReadEvt → List Json × StreamTerm
  | s, [] => (s.evs, .hung)
  | s, .eof :: _ => (s.evs, .ended)
  | s, .fail e :: _ => (s.evs, .threw (streamCatch e))
  | s, .chunk bs :: rest => consumeReads (processChunk s bs) rest

/-- The whole `queryStream` generator (client.ts lines 200 to 265) as a
function of the configured timeout, the instant at which `fetch` would
settle, its outcome, and the sequence of reads.  The timeout check
mirrors `requestRun`; note that the status check (line 226) happens
before `response.body` is touched, so on a non-2xx response the reads are
never consumed. -/
def queryStreamRun (t : Nat) (resolveAt : Option Nat) (out : FetchOutcome)
    (reads : List ReadEvt) : List Json × StreamTerm :=
  match resolveAt with
  | none => ([], .threw timeoutError)
  | some r =>
    if t < r then ([], .threw timeoutError)
    else
      match out with
      | .failure e => ([], .threw (streamCatch e))
      | .success status body =>
        if respOk status then consumeReads initDecState reads
        else if parseOrEmpty body = Json.null then ([], .threw (streamCatch nullAccessThrown))
        else ([], .threw (mkStreamHttpError body status))

/-- Reading a list of chunks followed by end-of-stream runs the decode
loop over the chunks and ends normally. -/
theorem consumeReads_chunks (chunks : List (List Nat)) : ∀ s : DecState,
    consumeReads s (chunks.map ReadEvt.chunk ++ [ReadEvt.eof]) =
      ((chunks.foldl processChunk s).evs, .ended) := by
  induction chunks with
  | nil => intro s; rfl
  | cons c cs ih =>
    intro s
    rw [List.map_cons, List.cons_append]
    exact ih (processChunk s c)

/-! ## Request construction: headers, upload form, bodies

These model what each operation puts on the wire, independent of timing. -/

/-- Set one key of a JavaScript object literal: overrides in place if the
key exists, otherwise appends (object property order). -/
def setKey : List (String × String) → String → String → List (String × String)
  | [], k, v => [(k, v)]
  | (k₂, v₂) :: t, k, v =>
    if k₂ = k then (k, v) :: t else (k₂, v₂) :: setKey t k v

/-- JavaScript object spread `{...base, ...extra}`: every property of
`extra` is set on `base`, in order, overriding existing keys. -/
def mergeJs (base extra : List (String × String)) : List (String × String) :=
  extra.foldl (fun acc kv => setKey acc kv.1 kv.2) base

/-- The headers `request` sends (client.ts lines 61 to 64):
`{Authorization: ..., ...options.headers}` — note the spread of the
caller-supplied headers comes second. -/
def requestHeaders (apiKey : String) (optHeaders : List (String × String)) :
    List (String × String) :=
  mergeJs [("Authorization", "Bearer " ++ apiKey)] optHeaders

/-- The header map passed by `search`, `query` and `createToken`
(client.ts lines 172, 189, 274). -/
def jsonHeaders : List (String × String) :=
  [("Content-Type", "application/json")]

/-- The headers `queryStream` sends (client.ts lines 211 to 214), written
out literally rather than via the merge. -/
def streamHeaders (apiKey : String) : List (String × String) :=
  [("Authorization", "Bearer " ++ apiKey), ("Content-Type", "application/json")]

/-! ## `JSON.stringify` (used for the multipart `metadata` field and for
request bodies)

Numbers are rendered from their lexical form; every value this client
stringifies is caller-supplied, so no float normalisation is modelled. -/

def hexDigit (n : Nat) : Char :=
  if n < 10 then Char.ofNat (48 + n) else Char.ofNat (87 + n)

/-- Escape one character of a JSON string. -/
def escJsonChar (c : Char) : List Char :=
  if c = '"' then ['\\', '"']
  else if c = '\\' then ['\\', '\\']
  else if c = '\n' then ['\\', 'n']
  else if c = '\r' then ['\\', 'r']
  else if c = '\t' then ['\\', 't']
  else if c = Char.ofNat 8 then ['\\', 'b']
  else if c = Char.ofNat 12 then ['\\', 'f']
  else if c.toNat < 0x20 then
    ['\\', 'u', '0', '0', hexDigit (c.toNat / 16), hexDigit (c.toNat % 16)]
  else [c]

def digitChars (ds : List Nat) : List Char :=
  ds.map (fun d => Char.ofNat (48 + d))

def stringifyNum (neg : Bool) (ip fp : List Nat) (ex : Option (Bool × List Nat)) : List Char :=
  (if neg then ['-'] else []) ++ digitChars ip ++
    (if fp = [] then [] else '.' :: digitChars fp) ++
    (match ex with
     | none => []
     | some (en, ds) => 'e' :: ((if en then ['-'] else []) ++ digitChars ds))

def quoteStr (s : String) : List Char :=
  '"' :: (s.toList.map escJsonChar).flatten ++ ['"']

mutual

def Json.stringify : Json → List Char
  | .null => ("null").toList
  | .bool true => ("true").toList
  | .bool false => ("false").toList
  | .num neg ip fp ex => stringifyNum neg ip fp ex
  | .str s => quoteStr s
  | .arr xs => '[' :: Json.stringifyArr xs ++ [']']
  | .obj kvs => Char.ofNat 123 :: Json.stringifyObj kvs ++ [Char.ofNat 125]

def Json.stringifyArr : JsonList → List Char
  | .nil => []
  | .cons j .nil => Json.stringify j
  | .cons j (.cons j₂ t) => Json.stringify j ++ ',' :: Json.stringifyArr (.cons j₂ t)

def Json.stringifyObj : JsonKvs → List Char
  | .nil => []
  | .cons k v .nil => quoteStr k ++ ':' :: Json.stringify v
  | .cons k v (.cons k₂ v₂ t) =>
    quoteStr k ++ ':' :: Json.stringify v ++ ',' :: Json.stringifyObj (.cons k₂ v₂ t)

end

/-! ## The `upload` operation (client.ts lines 100 to 127) -/

/-- `UploadOptions` (types.ts lines 34 to 38): `metadata` is checked by
truthiness (line 111), the chunk parameters by `!== undefined` (lines 115
and 119). -/
structure UploadOpts where
  metadata : Option Json := none
  chunkSize : Option Int := none
  chunkOverlap : Option Int := none

/-- The `files` parameter: `File[] | File` (line 102). -/
inductive FilesArg (F : Type) where
  | one (f : F) : FilesArg F
  | many (fs : List F) : FilesArg F

/-- `Array.isArray(files) ? files : [files]` (line 108). -/
def fileArrayOf {F : Type} : FilesArg F → List F
  | .one f => [f]
  | .many fs => fs

/-- One entry of a `FormData` body, in append order. -/
inductive FormPart (F : Type) where
  | field (name : String) (value : List Char) : FormPart F
  | filePart (name : String) (f : F) : FormPart F

/-- Whether a form part is a file part. -/
def FormPart.isFile {F : Type} : FormPart F → Bool
  | .filePart _ _ => true
  | .field _ _ => false

/-- The name of a form part. -/
def FormPart.name {F : Type} : FormPart F → String
  | .filePart n _ => n
  | .field n _ => n

/-- The `FormData` built by `upload` (client.ts lines 105 to 121), in
append order: `datasetId`, then one part named `file` per file of the
normalised array, then the optional `metadata` (stringified), `chunkSize`
and `chunkOverlap` fields. -/
def uploadFormParts {F : Type} (datasetId : String) (files : FilesArg F)
    (o : UploadOpts) : List (FormPart F) :=
  [.field ("datasetId") datasetId.toList]
    ++ (fileArrayOf files).map (fun f => .filePart ("file") f)
    ++ (match o.metadata with
        | some m => if jsTruthy m then [.field ("metadata") (Json.stringify m)] else []
        | none => [])
    ++ (match o.chunkSize with
        | some n => [.field ("chunkSize") (toString n).toList]
        | none => [])
    ++ (match o.chunkOverlap with
        | some n => [.field ("chunkOverlap") (toString n).toList]
        | none => [])

/-- The wire request of one `upload` call: endpoint path, method, and the
multipart body (client.ts lines 123 to 126). -/
structure UploadWire (F : Type) where
  path : String
  method : String
  parts : List (FormPart F)

def uploadRequest {F : Type} (datasetId : String) (files : FilesArg F)
    (o : UploadOpts) : UploadWire F :=
  ⟨"/v1/files/upload", "POST", uploadFormParts datasetId files o⟩

/-! ## Client construction and `createToken` -/

/-- The constructor argument: a bare API key string, or a configuration
object (types.ts lines 3 to 7) whose `baseUrl` and `timeout` are
optional. -/
inductive ClientConfig where
  | key (apiKey : String) : ClientConfig
  | cfg (apiKey : String) (baseUrl : Option String) (timeout : Option Nat) : ClientConfig
deriving DecidableEq, Repr

structure ClientState where
  apiKey : String
  baseUrl : String
  timeout : Nat
deriving DecidableEq, Repr

def prodBaseUrl : String := "https://api.easyrag.com"

/-- The constructor (client.ts lines 38 to 48): with an object, `baseUrl`
and `timeout` are defaulted with `||`, so falsy values (empty string,
`0`) also get the defaults. -/
def mkClient : ClientConfig → ClientState
  | .key k => ⟨k, prodBaseUrl, 30000⟩
  | .cfg k b t => ⟨k, jsOrStr b prodBaseUrl, jsOrNat t 30000⟩

/-- The body `createToken` sends (client.ts lines 275 to 278):
`ttlSeconds: options.ttlSeconds || 3600`, so a ttl of `0` becomes the
default `3600`. -/
def createTokenBody (datasetId : String) (ttlSeconds : Option Nat) : List (String × Json) :=
  [("datasetId", .str datasetId),
    ("ttlSeconds", .num false ((toString (jsOrNat ttlSeconds 3600)).toList.map digVal) [] none)]

/-! ## Concrete streams used by the streaming claims -/

/-- The three frames of the specification's streaming order property. -/
def demoText : List Char :=
  ("data: \x7b\"delta\":\"a\"\x7d\ndata: \x7b\"delta\":\"b\"\x7d\ndata: \x7b\"done\":true\x7d\n").toList

def demoBytes : List Nat := utf8Encode demoText

def deltaA : Json := jObj [("delta", .str ("a"))]

def deltaB : Json := jObj [("delta", .str ("b"))]

def doneEvent : Json := jObj [("done", .bool true)]

/-- A frame whose delta is a two-byte character (U+00E9), for the
multi-byte boundary property. -/
def accentText : List Char :=
  ("data: \x7b\"delta\":\"").toList ++ [Char.ofNat 233] ++ ("\"\x7d\n").toList

def accentBytes : List Nat := utf8Encode accentText

def accentEvent : Json := jObj [("delta", .str (String.mk [Char.ofNat 233]))]

/-- Two valid frames around a `data: ` line with an unparseable payload
and a line without the marker. -/
def malText : List Char :=
  ("data: \x7b\"delta\":\"a\"\x7d\nnoise\ndata: not-json\ndata: \x7b\"delta\":\"b\"\x7d\n").toList

def malBytes : List Nat := utf8Encode malText

/-- Helper: a 2xx streaming call whose reads deliver `cs` then end of
stream yields exactly the events of the decode loop on the joined bytes. -/
theorem queryStreamRun_ok_chunks (t r : Nat) (cs : List (List Nat)) (body : List Char)
    (hrt : r ≤ t) :
    queryStreamRun t (some r) (.success 200 body) (cs.map ReadEvt.chunk ++ [ReadEvt.eof]) =
      ((processChunk initDecState cs.flatten).evs, .ended) := by
  have hnl : ¬ t < r := Nat.not_lt.mpr hrt
  have hok : respOk 200 = true := by decide
  simp only [queryStreamRun, if_neg hnl, hok, if_true]
  rw [consumeReads_chunks, foldl_processChunk_flatten cs initDecState (by simp [initDecState])]

/-- Claim C1: for the byte stream carrying the frames
`data: {"delta":"a"}`, `data: {"delta":"b"}`, `data: {"done":true}`,
`queryStream` yields exactly the events `[{delta:"a"}, {delta:"b"},
{done:true}]` in frame order, for every way of cutting the bytes into
chunks (including cuts inside a frame); and a frame whose payload
contains a two-byte character still decodes correctly under every
chunking, including cuts between the two bytes of that character. -/
theorem c1_stream_order_chunking_invariance :
    (∀ (t r : Nat) (cs : List (List Nat)), r ≤ t → cs.flatten = demoBytes →
       queryStreamRun t (some r) (.success 200 []) (cs.map ReadEvt.chunk ++ [ReadEvt.eof]) =
         ([deltaA, deltaB, doneEvent], .ended))
  ∧ (∀ (t r : Nat) (cs : List (List Nat)), r ≤ t → cs.flatten = accentBytes →
       queryStreamRun t (some r) (.success 200 []) (cs.map ReadEvt.chunk ++ [ReadEvt.eof]) =
         ([accentEvent], .ended)) := by
  constructor
  · intro t r cs hrt hcs
    rw [queryStreamRun_ok_chunks t r cs [] hrt, hcs]
    decide
  · intro t r cs hrt hcs
    rw [queryStreamRun_ok_chunks t r cs [] hrt, hcs]
    decide

/-- Witness for C1: concrete chunkings, one cutting the first frame in
the middle, one cutting between the two bytes of the two-byte character
(byte 16 is 0xC3, byte 17 is 0xA9). -/
theorem c1_stream_order_chunking_invariance_witness :
    queryStreamRun 30000 (some 0) (.success 200 [])
        ([demoBytes.take 9, demoBytes.drop 9].map ReadEvt.chunk ++ [ReadEvt.eof]) =
      ([deltaA, deltaB, doneEvent], .ended) ∧
    queryStreamRun 30000 (some 0) (.success 200 [])
        ([accentBytes.take 17, accentBytes.drop 17].map ReadEvt.chunk ++ [ReadEvt.eof]) =
      ([accentEvent], .ended) :=
  ⟨c1_stream_order_chunking_invariance.1 30000 0 [demoBytes.take 9, demoBytes.drop 9]
    (by decide) (by decide),
   c1_stream_order_chunking_invariance.2 30000 0 [accentBytes.take 17, accentBytes.drop 17]
    (by decide) (by decide)⟩

/-- Claim C4: a `data: ` line whose remainder is not valid JSON produces
no event and does not terminate the sequence, and lines without the
marker are discarded: the stream with frames `a`, `noise`, `not-json`,
`b` yields exactly the two valid events, under every chunking. -/
theorem c4_malformed_frame_tolerance :
    ∀ (t r : Nat) (cs : List (List Nat)), r ≤ t → cs.flatten = malBytes →
      queryStreamRun t (some r) (.success 200 []) (cs.map ReadEvt.chunk ++ [ReadEvt.eof]) =
        ([deltaA, deltaB], .ended) := by
  intro t r cs hrt hcs
  rw [queryStreamRun_ok_chunks t r cs [] hrt, hcs]
  decide

/-- Witness for C4: the whole stream in one chunk. -/
theorem c4_malformed_frame_tolerance_witness :
    queryStreamRun 30000 (some 0) (.success 200 [])
        ([malBytes].map ReadEvt.chunk ++ [ReadEvt.eof]) = ([deltaA, deltaB], .ended) :=
  c4_malformed_frame_tolerance 30000 0 [malBytes] (by decide) (by decide)

/-! ## Claim C8: shape of yielded events -/

/-- Whether a JSON value is a string. -/
def isStrJson : Json → Bool
  | .str _ => true
  | _ => false

/-- The recognised Stream Event shapes of types.ts lines 111 to 123:
`{delta: string}`, `{done: true}`, `{error: string}` (exactly one variant
field). -/
def isRecognizedEvent : Json → Bool
  | .obj (.cons k v .nil) =>
    (k = "delta" && isStrJson v) || (k = "done" && v = Json.bool true) ||
      (k = "error" && isStrJson v)
  | _ => false

def optionAllB {α : Type} (p : α → Bool) : Option α → Bool
  | none => true
  | some a => p a

/-- Counterexample to claim C8 as stated: the decode loop yields the
parsed JSON of any well-formed `data: ` line without validating its
shape (client.ts lines 249 to 250), so a stream whose frame payload is
`{"x":1}` yields an event that is none of the recognised variants. -/
theorem c8_unvalidated_event_counterexample :
    streamEvents [utf8Encode (("data: \x7b\"x\":1\x7d\n").toList)] =
      [jObj [("x", .num false [1] [] none)]] ∧
    isRecognizedEvent (jObj [("x", .num false [1] [] none)]) = false :=
  ⟨by decide, by decide⟩

/-- Claim C8 (amended): every yielded event is the parse of the payload
of some complete `data: ` line of the stream; in particular, when every
parseable `data: ` payload of the stream is one of the recognised shapes
`{delta: string}`, `{done: true}`, `{error: string}`, every yielded event
is of a recognised shape.  The code itself performs no shape validation. -/
theorem c8_events_recognized_when_frames_recognized :
    ∀ chunks : List (List Nat),
      (∀ l ∈ (runDec chunks).lns, optionAllB isRecognizedEvent (lineEvent l) = true) →
      ∀ ev ∈ streamEvents chunks, isRecognizedEvent ev = true := by
  intro chunks h ev hev
  obtain ⟨l, hl, hle⟩ := streamEvents_from_lines chunks ev hev
  have := h l hl
  rw [hle] at this
  exact this

/-- Witness for C8: the demo stream's frames are all recognised, hence so
is each yielded event. -/
theorem c8_events_recognized_when_frames_recognized_witness :
    isRecognizedEvent deltaA = true :=
  c8_events_recognized_when_frames_recognized [demoBytes] (by decide) deltaA (by decide)

/-! ## Claims C2 and C6: the request helper -/

deriving instance DecidableEq for Except


/-- The 402 insufficient-credits body of the specification's error shape
property. -/
def icBody : List Char :=
  ("\x7b\"error\":\"INSUFFICIENT_CREDITS\",\"details\":\x7b\"required\":1,\"available\":0\x7d\x7d").toList

/-- Counterexample to claim C2 as stated: line 73 selects the message
with `||`, i.e. by truthiness, not by presence.  With body
`{"error":"","message":"m"}` the `error` field is present (it even
becomes the `code` field), yet the message is taken from `message`. -/
theorem c2_message_truthiness_counterexample :
    requestRun 30000 (some 0) (.success 400 (("\x7b\"error\":\"\",\"message\":\"m\"\x7d").toList)) =
      .error ⟨.str ("m"), some 400, some (.str ("")), none⟩ ∧
    Json.str ("m") ≠ Json.str ("") :=
  ⟨by decide, by decide⟩

/-- Claim C2 (amended): on a non-2xx response whose body does not parse
to JSON `null`, the thrown error has message equal to the body's `error`
field when present and truthy, else the `message` field when present and
truthy, else `"HTTP <status>"` (also for empty or non-JSON bodies);
status is the HTTP status; `code` is the body's `error` field and
`details` the body's `details` field.  In particular the 402
insufficient-credits body yields status 402, code
`INSUFFICIENT_CREDITS`, details `{required:1,available:0}`. -/
theorem c2_http_error_normalization :
    (∀ (t r status : Nat) (body : List Char), r ≤ t → respOk status = false →
      parseOrEmpty body ≠ Json.null →
      requestRun t (some r) (.success status body) = .error
        ⟨jsOrJ ((parseOrEmpty body).getField ("error"))
            (jsOrJ ((parseOrEmpty body).getField ("message")) (.str ("HTTP " ++ toString status))),
          some status,
          (parseOrEmpty body).getField ("error"),
          ((parseOrEmpty body).getField ("details")).map ErrDetail.json⟩)
  ∧ requestRun 30000 (some 0) (.success 402 icBody) = .error
      ⟨.str ("INSUFFICIENT_CREDITS"), some 402, some (.str ("INSUFFICIENT_CREDITS")),
        some (.json (jObj [("required", .num false [1] [] none),
          ("available", .num false [0] [] none)]))⟩ := by
  constructor
  · intro t r status body hrt hok hnn
    have hnl : ¬ t < r := Nat.not_lt.mpr hrt
    simp only [requestRun, if_neg hnl, hok, Bool.false_eq_true, if_false, if_neg hnn]
    rfl
  · decide

/-- Witness for C2: an empty non-JSON body falls back to `HTTP 404` with
no code and no details. -/
theorem c2_http_error_normalization_witness :
    requestRun 1 (some 0) (.success 404 []) =
      .error ⟨.str ("HTTP 404"), some 404, none, none⟩ :=
  c2_http_error_normalization.1 1 0 404 [] (by decide) (by decide) (by decide)

/-- Claim C6: a 2xx response whose body parses as JSON is returned to the
caller exactly as parsed — nothing added, removed or validated. -/
theorem c6_success_passthrough :
    ∀ (t r status : Nat) (body : List Char) (j : Json), r ≤ t → respOk status = true →
      jsonParse body = some j →
      requestRun t (some r) (.success status body) = .ok j := by
  intro t r status body j hrt hok hp
  have hnl : ¬ t < r := Nat.not_lt.mpr hrt
  simp only [requestRun, if_neg hnl, hok, if_true, hp]

/-- Witness for C6. -/
theorem c6_success_passthrough_witness :
    requestRun 1 (some 0) (.success 200 (("\x7b\"a\":1\x7d").toList)) =
      .ok (jObj [("a", .num false [1] [] none)]) :=
  c6_success_passthrough 1 0 200 (("\x7b\"a\":1\x7d").toList)
    (jObj [("a", .num false [1] [] none)]) (by decide) (by decide) (by decide)

/-! ## Claim C3: timeout coverage and classification -/

/-- Counterexample to claim C3 as stated: `clearTimeout` runs as soon as
the response headers arrive (client.ts line 224), before the read loop,
so the configured duration elapsing while awaiting a chunk does not fail
the call — the generator waits forever (here: headers at instant 0,
timeout 30000, and the first chunk read never settles). -/
theorem c3_chunk_wait_not_timed_counterexample :
    queryStreamRun 30000 (some 0) (.success 200 []) [] = ([], StreamTerm.hung) ∧
    StreamTerm.hung ≠ StreamTerm.threw timeoutError :=
  ⟨by decide, by decide⟩

/-- Claim C3 (amended): the cancellation timer covers only the await of
the response itself.  If `fetch` does not settle within the configured
timeout, both `request` and `queryStream` fail with the Timeout error
(message `"Request timeout"`, no status, no details) and not with a
Network error; any settled rejection named `AbortError` — however the
transport produced it — is likewise classified as Timeout.  Once the
response arrives the timer is cleared, so chunk waits are unbounded. -/
theorem c3_timeout_classification :
    (∀ (t : Nat) (out : FetchOutcome) (reads : List ReadEvt),
        requestRun t none out = .error timeoutError
      ∧ queryStreamRun t none out reads = ([], .threw timeoutError))
  ∧ (∀ (t r : Nat) (out : FetchOutcome) (reads : List ReadEvt), t < r →
        requestRun t (some r) out = .error timeoutError
      ∧ queryStreamRun t (some r) out reads = ([], .threw timeoutError))
  ∧ (∀ (t r : Nat) (e : JsThrown) (reads : List ReadEvt), r ≤ t → isAbortError e = true →
        requestRun t (some r) (.failure e) = .error timeoutError
      ∧ queryStreamRun t (some r) (.failure e) reads = ([], .threw timeoutError))
  ∧ timeoutError = ⟨.str ("Request timeout"), none, none, none⟩ := by
  refine ⟨fun t out reads => ⟨rfl, rfl⟩, ?_, ?_, rfl⟩
  · intro t r out reads h
    exact ⟨by simp only [requestRun, if_pos h], by simp only [queryStreamRun, if_pos h]⟩
  · intro t r e reads hrt habort
    have hnl : ¬ t < r := Nat.not_lt.mpr hrt
    constructor
    · simp only [requestRun, if_neg hnl, requestCatch, habort, if_true]
    · simp only [queryStreamRun, if_neg hnl, streamCatch, habort, if_true]

/-- Witness for C3: a fetch that would settle only after the timeout is
reported as Timeout, and so is a transport-reported abort rejection. -/
theorem c3_timeout_classification_witness :
    (requestRun 100 (some 101) (.success 200 []) = .error timeoutError) ∧
    (requestRun 100 (some 50)
        (.failure (.errObj ("AbortError") ("The operation was aborted"))) =
      .error timeoutError) :=
  ⟨(c3_timeout_classification.2.1 100 101 (.success 200 []) [] (by decide)).1,
   (c3_timeout_classification.2.2.1 100 50 (.errObj ("AbortError") ("The operation was aborted"))
      [] (by decide) (by decide)).1⟩

/-! ## Claim C5: streaming non-2xx responses -/

/-- Counterexample to claim C5 as stated: on a non-2xx streaming
response, lines 228 to 231 build the error from `error.error ||
"HTTP <status>"` and the status only — unlike the non-streaming
normalisation, the `message` fallback, the `code` and the `details` are
dropped.  On the 402 insufficient-credits body the streaming error
carries no code and no details, differing from `request`'s error. -/
theorem c5_stream_error_normalization_counterexample :
    queryStreamRun 30000 (some 0) (.success 402 icBody) [] =
      ([], .threw ⟨.str ("INSUFFICIENT_CREDITS"), some 402, none, none⟩) ∧
    mkRequestHttpError icBody 402 ≠
      ⟨.str ("INSUFFICIENT_CREDITS"), some 402, none, none⟩ :=
  ⟨by decide, by decide⟩

/-- Claim C5 (amended): a non-2xx streaming response (body not JSON
`null`) fails immediately — no event is yielded and the result does not
depend on the body stream at all — with an error whose message is the
body's truthy `error` field falling back to `"HTTP <status>"` (no
`message`-field fallback) and whose status is the HTTP status; `code`
and `details` are left unset, unlike the non-streaming normalisation. -/
theorem c5_stream_http_error :
    ∀ (t r status : Nat) (body : List Char) (reads : List ReadEvt), r ≤ t →
      respOk status = false → parseOrEmpty body ≠ Json.null →
      queryStreamRun t (some r) (.success status body) reads =
        ([], .threw ⟨jsOrJ ((parseOrEmpty body).getField ("error"))
            (.str ("HTTP " ++ toString status)), some status, none, none⟩) := by
  intro t r status body reads hrt hok hnn
  have hnl : ¬ t < r := Nat.not_lt.mpr hrt
  simp only [queryStreamRun, if_neg hnl, hok, Bool.false_eq_true, if_false, if_neg hnn]
  rfl

/-- Witness for C5: the reads would have delivered a whole valid stream,
but the 500 response fails the call before any of it is consumed. -/
theorem c5_stream_http_error_witness :
    queryStreamRun 30000 (some 0) (.success 500 []) [ReadEvt.chunk demoBytes, ReadEvt.eof] =
      ([], .threw ⟨.str ("HTTP 500"), some 500, none, none⟩) :=
  c5_stream_http_error 30000 0 500 [] [ReadEvt.chunk demoBytes, ReadEvt.eof]
    (by decide) (by decide) (by decide)

/-! ## Claim C7: the Authorization header -/

/-- Counterexample to claim C7 as stated: the caller-supplied headers are
spread after the injected `Authorization` entry (client.ts lines 61 to
64), so a headers map containing an `Authorization` key replaces the
injected credential. -/
theorem c7_auth_override_counterexample :
    (requestHeaders ("k") [("Authorization", "Bearer evil")]).lookup ("Authorization") =
      some ("Bearer evil") ∧
    ("Bearer evil" : String) ≠ "Bearer k" :=
  ⟨by decide, by decide⟩

/-- Claim C7 (amended): every request an SDK operation actually sends
carries `Authorization: Bearer <apiKey>`: the non-streaming operations
pass either no headers (`upload`, `listFiles`, `getFile`, `deleteFile`,
`deleteDataset`, `deleteAll`) or only a `Content-Type` header (`search`,
`query`, `createToken`), never an `Authorization` key, and `queryStream`
writes the header literally.  The merge itself, however, lets a supplied
`Authorization` key replace the injected one, so the guarantee holds
because no operation supplies one, not because the merge protects it. -/
theorem c7_auth_header_on_every_operation :
    ∀ apiKey : String,
      ((requestHeaders apiKey []).lookup ("Authorization") = some ("Bearer " ++ apiKey))
    ∧ ((requestHeaders apiKey jsonHeaders).lookup ("Authorization") = some ("Bearer " ++ apiKey))
    ∧ ((streamHeaders apiKey).lookup ("Authorization") = some ("Bearer " ++ apiKey)) := by
  intro apiKey
  refine ⟨rfl, ?_, rfl⟩
  show (setKey [("Authorization", "Bearer " ++ apiKey)] ("Content-Type")
      ("application/json")).lookup ("Authorization") = some ("Bearer " ++ apiKey)
  have h : ("Authorization" : String) ≠ "Content-Type" := by decide
  simp [setKey, h, List.lookup]

/-! ## Claim C9: upload normalisation -/

theorem fileParts_all_named {F : Type} (fs : List F) :
    (fs.map (fun f => FormPart.filePart ("file") f)).all
      (fun p => !p.isFile || p.name = "file") = true := by
  induction fs with
  | nil => rfl
  | cons f t ih => simp [FormPart.isFile, FormPart.name, ih]

/-- Claim C9: uploading a single file produces the identical wire request
(path, method, multipart fields, names and order) to uploading a
one-element array containing it; and every file part of any upload is
appended under the fixed field name `file` whatever its position. -/
theorem c9_upload_single_file_normalization :
    (∀ (F : Type) (d : String) (f : F) (o : UploadOpts),
        uploadRequest d (.one f) o = uploadRequest d (.many [f]) o)
  ∧ (∀ (F : Type) (d : String) (fa : FilesArg F) (o : UploadOpts),
        ((uploadRequest d fa o).parts.all (fun p => !p.isFile || p.name = "file")) = true) := by
  constructor
  · intro F d f o
    rfl
  · intro F d fa o
    obtain ⟨m, cs, co⟩ := o
    simp only [uploadRequest, uploadFormParts]
    cases m <;> cases cs <;> cases co <;>
      simp [List.all_append, fileParts_all_named, FormPart.isFile, FormPart.name]

/-! ## Claim C10: truthiness-based defaults -/

/-- Claim C10: defaults are applied by truthiness: `createToken` with
`ttlSeconds: 0` sends `ttlSeconds: 3600`, and a configuration with
`timeout: 0` or `baseUrl: ""` yields the defaults 30000 ms and the
production base URL, exactly as if the fields had been omitted. -/
theorem c10_truthiness_defaults :
    ∀ (k d : String),
      createTokenBody d (some 0) = createTokenBody d none
    ∧ createTokenBody d (some 0) =
        [("datasetId", .str d), ("ttlSeconds", .num false [3, 6, 0, 0] [] none)]
    ∧ mkClient (.cfg k (some ("")) (some 0)) = mkClient (.cfg k none none)
    ∧ mkClient (.cfg k none none) = ⟨k, prodBaseUrl, 30000⟩ := by
  intro k d
  exact ⟨rfl, rfl, rfl, rfl⟩
